import Mathlib

/-!
Verification of the Veritas frontend spreadsheet-viewer helpers.

JavaScript strings are modelled as lists of UTF-16 code units
(`List Nat`); `codes` converts a Lean string literal to that form for
concrete examples.  Fallible operations return `Option`; JavaScript's
`undefined` and thrown `TypeError`s are modelled explicitly where a
claim depends on them.
-/

/-- UTF-16 code units of a string literal, for writing concrete inputs. -/
def codes (s : String) : List Nat := s.data.map Char.toNat

/-- `String.prototype.toUpperCase` on one ASCII code unit. -/
def jsToUpper (c : Nat) : Nat := if 97 ≤ c ∧ c ≤ 122 then c - 32 else c

/-- `String.prototype.toLowerCase` on one ASCII code unit. -/
def jsToLower (c : Nat) : Nat := if 65 ≤ c ∧ c ≤ 90 then c + 32 else c

/-- Code unit is in `[A-Z]`. -/
def isUpperAZ (c : Nat) : Bool := decide (65 ≤ c ∧ c ≤ 90)

/-- Code unit matches `[A-Z]` under the `i` flag, i.e. `[A-Za-z]`. -/
def isAsciiLetter (c : Nat) : Bool :=
  decide ((65 ≤ c ∧ c ≤ 90) ∨ (97 ≤ c ∧ c ≤ 122))

/-- Code unit matches `\d`, i.e. `[0-9]`. -/
def isDigit09 (c : Nat) : Bool := decide (48 ≤ c ∧ c ≤ 57)

/-- `colToLetter` from `ExcelViewer.jsx`: bijective base-26 column label.
`while (col > 0) { rem = (col-1) % 26; letter = chr(65+rem) + letter;
col = floor((col-1) / 26) }`, returned as the list of code units. -/
def colToLetter (col : Nat) : List Nat :=
  if col = 0 then []
  else colToLetter ((col - 1) / 26) ++ [65 + (col - 1) % 26]
termination_by col
decreasing_by
  have h1 : (col - 1) / 26 ≤ col - 1 := Nat.div_le_self _ _
  omega

/-- The letter-accumulation loop of `a1ToRC`:
`col = col * 26 + (ch.charCodeAt(0) - 64)` over the letter part. -/
def lettersToCol (letters : List Nat) : Nat :=
  letters.foldl (fun col ch => col * 26 + (ch - 64)) 0

/-- `parseInt(digits, 10)` on a nonempty string of decimal digit codes. -/
def parseIntDec (digits : List Nat) : Nat :=
  digits.foldl (fun n d => n * 10 + (d - 48)) 0

/-- `a1ToRC` from `ExcelViewer.jsx`: uppercases the input, matches it
against `/^([A-Z]+)(\d+)$/i` (a maximal letter prefix followed only by
digits, both nonempty), and returns `(row, col)`; `none` on no match. -/
def a1ToRC (a1 : List Nat) : Option (Nat × Nat) :=
  let up := a1.map jsToUpper
  let letters := up.takeWhile isUpperAZ
  let rest := up.dropWhile isUpperAZ
  if letters ≠ [] ∧ rest ≠ [] ∧ rest.all isDigit09 then
    some (parseIntDec rest, lettersToCol letters)
  else none

theorem lettersToCol_append (l : List Nat) (d : Nat) :
    lettersToCol (l ++ [d]) = lettersToCol l * 26 + (d - 64) := by
  simp [lettersToCol, List.foldl_append]

theorem lettersToCol_colToLetter (col : Nat) :
    lettersToCol (colToLetter col) = col := by
  induction col using Nat.strong_induction_on with
  | _ col ih =>
    by_cases h : col = 0
    · subst h
      simp [colToLetter, lettersToCol]
    · rw [colToLetter, if_neg h, lettersToCol_append]
      have hlt : (col - 1) / 26 < col := by
        have h1 : (col - 1) / 26 ≤ col - 1 := Nat.div_le_self _ _
        omega
      rw [ih _ hlt]
      have hmod : (col - 1) % 26 < 26 := Nat.mod_lt _ (by omega)
      have hdm : 26 * ((col - 1) / 26) + (col - 1) % 26 = col - 1 :=
        Nat.div_add_mod (col - 1) 26
      omega

/-- C1: for every column index in [1, 18278], encoding it with
`colToLetter` and decoding the label with the letter-accumulation loop
of `a1ToRC` yields the index again. -/
theorem colToLetter_roundtrip (col : Nat) (h1 : 1 ≤ col) (h2 : col ≤ 18278) :
    lettersToCol (colToLetter col) = col :=
  lettersToCol_colToLetter col

/-- C1 witness: the round trip at column 702 (label ZZ). -/
theorem colToLetter_roundtrip_witness :
    1 ≤ 702 ∧ 702 ≤ 18278 ∧ lettersToCol (colToLetter 702) = 702 :=
  ⟨by decide, by decide, colToLetter_roundtrip 702 (by decide) (by decide)⟩

theorem lettersToCol_go_pos (l : List Nat) (acc : Nat)
    (hl : l ≠ []) (hall : ∀ c ∈ l, isUpperAZ c = true) :
    1 ≤ l.foldl (fun col ch => col * 26 + (ch - 64)) acc := by
  induction l generalizing acc with
  | nil => exact absurd rfl hl
  | cons c t ih =>
    cases t with
    | nil =>
      have hc : isUpperAZ c = true := hall c (by simp)
      simp only [isUpperAZ, decide_eq_true_eq] at hc
      simp only [List.foldl]
      omega
    | cons d u =>
      exact ih _ (by simp) (fun x hx => hall x (by simp [hx]))

/-- C7 counterexample: `a1ToRC "A0"` matches the pattern and returns
row 0, contradicting the claim that every parsed row is ≥ 1. -/
theorem a1ToRC_row_zero :
    a1ToRC (codes "A0") = some (0, 1) ∧ ¬ 1 ≤ (0 : Nat) := by decide

/-- C7 (amended): whenever `a1ToRC` returns an address, the column is
≥ 1 (the row is only ≥ 0: an all-zero digit part yields row 0), and
non-matching strings yield `none` rather than an exception. -/
theorem a1ToRC_col_pos (a1 : List Nat) (row col : Nat)
    (h : a1ToRC a1 = some (row, col)) : 1 ≤ col := by
  simp only [a1ToRC] at h
  by_cases hc : (a1.map jsToUpper).takeWhile isUpperAZ ≠ [] ∧
      (a1.map jsToUpper).dropWhile isUpperAZ ≠ [] ∧
      ((a1.map jsToUpper).dropWhile isUpperAZ).all isDigit09
  · rw [if_pos hc] at h
    obtain ⟨hl, -, -⟩ := hc
    have hcol : col = lettersToCol ((a1.map jsToUpper).takeWhile isUpperAZ) := by
      cases h
      rfl
    rw [hcol]
    exact lettersToCol_go_pos _ 0 hl
      (fun c hc => List.mem_takeWhile_imp hc)
  · rw [if_neg hc] at h
    exact absurd h (by simp)

/-- C7 witness: `a1ToRC "B7"` returns an address whose column is ≥ 1. -/
theorem a1ToRC_col_pos_witness :
    a1ToRC (codes "B7") = some (7, 2) ∧ 1 ≤ 2 :=
  ⟨by decide, a1ToRC_col_pos (codes "B7") 7 2 (by decide)⟩

/-- `String.prototype.split` with a one-character separator, as in
`cellRef.split('!')` (an empty string yields one empty token). -/
def splitOn (sep : Nat) : List Nat → List (List Nat)
  | [] => [[]]
  | c :: cs =>
    if c = sep then [] :: splitOn sep cs
    else
      match splitOn sep cs with
      | [] => [[c]]
      | t :: ts => (c :: t) :: ts

/-- Code unit is JavaScript whitespace removed by `trim` (ASCII part). -/
def isJsSpace (c : Nat) : Bool :=
  c == 32 || c == 9 || c == 10 || c == 13 || c == 11 || c == 12

/-- `String.prototype.trim` restricted to ASCII whitespace. -/
def jsTrim (s : List Nat) : List Nat :=
  ((s.dropWhile isJsSpace).reverse.dropWhile isJsSpace).reverse

/-- The test `/^[A-Z]+\d+$/i.test(cell)` from `parseMultipleCells`:
a nonempty maximal run of ASCII letters followed only by digits. -/
def cellPatternTest (s : List Nat) : Bool :=
  let letters := s.takeWhile isAsciiLetter
  let rest := s.dropWhile isAsciiLetter
  !letters.isEmpty && (!rest.isEmpty && rest.all isDigit09)

/-- `parseMultipleCells` from `Preview.jsx`: guard against a falsy
input, split on `'!'` (code 33), trim each token, drop empty tokens,
then keep only tokens passing the cell pattern test. -/
def parseMultipleCells (cellRef : List Nat) : List (List Nat) :=
  if cellRef = [] then []
  else
    let cells := ((splitOn 33 cellRef).map jsTrim).filter (fun c => !c.isEmpty)
    cells.filter cellPatternTest

/-- C4: `parseMultipleCells` yields exactly the valid tokens, in their
original order (a sublist of the trimmed split), every returned token
matches the cell pattern, and the two spec examples evaluate as
claimed; the function is total, so it never throws. -/
theorem parseMultipleCells_spec :
    parseMultipleCells (codes "O10!B5!C3") = [codes "O10", codes "B5", codes "C3"]
    ∧ parseMultipleCells (codes "O10!bad!C3") = [codes "O10", codes "C3"]
    ∧ (∀ raw, (∀ t ∈ parseMultipleCells raw, cellPatternTest t = true)
        ∧ (parseMultipleCells raw).Sublist ((splitOn 33 raw).map jsTrim)) := by
  refine ⟨by decide, by decide, fun raw => ⟨?_, ?_⟩⟩
  · intro t ht
    by_cases hr : raw = []
    · simp [parseMultipleCells, hr] at ht
    · simp only [parseMultipleCells, if_neg hr] at ht
      exact List.of_mem_filter ht
  · by_cases hr : raw = []
    · simp [parseMultipleCells, hr]
    · simp only [parseMultipleCells, if_neg hr]
      exact (List.filter_sublist _).trans (List.filter_sublist _)

/-- `isValidSheet` from `Preview.jsx`: a falsy (empty) name is invalid,
otherwise the available sheets are scanned case-insensitively. -/
def isValidSheet (avail : List (List Nat)) (sheetName : List Nat) : Bool :=
  if sheetName = [] then false
  else avail.any (fun s => decide (s.map jsToLower = sheetName.map jsToLower))

/-- A finding record as used by the `Preview.jsx` list view: the sheet
name and the parsed cell references of one transformed value. -/
structure Finding where
  sheet : List Nat
  cells : List (List Nat)
deriving DecidableEq

/-- The tail of the `transformedValues` mapping in `Preview.jsx`: parse
the raw cell reference and drop the record (`return null`) when the
sheet name is falsy or no cell reference survived parsing. -/
def mkFinding (sheetName rawCellRef : List Nat) : Option Finding :=
  let cellRefs := parseMultipleCells rawCellRef
  if sheetName = [] ∨ cellRefs = [] then none
  else some ⟨sheetName, cellRefs⟩

/-- `value.cells.every(cell => cellPattern.test(cell))` from the list
view of `Preview.jsx`. -/
def allCellsValid (f : Finding) : Bool := f.cells.all cellPatternTest

/-- `isClickable` from the `Preview.jsx` list view. -/
def isClickable (avail : List (List Nat)) (f : Finding) : Bool :=
  isValidSheet avail f.sheet && allCellsValid f

/-- The interaction-relevant attributes of one rendered list entry:
the button's `disabled` flag and the two diagnostic markers. -/
structure RenderedEntry where
  disabled : Bool
  invalidSheetMark : Bool
  invalidCellsMark : Bool
deriving DecidableEq

/-- How `Preview.jsx` renders one finding in the list view. -/
def renderEntry (avail : List (List Nat)) (f : Finding) : RenderedEntry :=
  ⟨!isClickable avail f, !isValidSheet avail f.sheet, !allCellsValid f⟩

/-- The list view renders every transformed finding. -/
def renderList (avail : List (List Nat)) (fs : List Finding) : List RenderedEntry :=
  fs.map (renderEntry avail)

/-- C5: a transformed finding is clickable iff its sheet is a
case-insensitive member of the known sheets and all its parsed cells
are valid; every finding is rendered (the list keeps its length), an
ineligible one is rendered disabled, and the two diagnostic markers
distinguish an unknown sheet from malformed cells. -/
theorem finding_eligibility_spec (avail : List (List Nat))
    (sheetName raw : List Nat) (f : Finding)
    (h : mkFinding sheetName raw = some f) :
    (isClickable avail f = true ↔
      ((∃ s ∈ avail, s.map jsToLower = f.sheet.map jsToLower) ∧
        ∀ c ∈ f.cells, cellPatternTest c = true))
    ∧ (∀ fs : List Finding, (renderList avail fs).length = fs.length)
    ∧ (renderEntry avail f).disabled = !isClickable avail f
    ∧ ((renderEntry avail f).invalidSheetMark = true ↔
        ¬ ∃ s ∈ avail, s.map jsToLower = f.sheet.map jsToLower)
    ∧ ((renderEntry avail f).invalidCellsMark = true ↔
        ¬ ∀ c ∈ f.cells, cellPatternTest c = true) := by
  have hsheet : f.sheet = sheetName ∧ sheetName ≠ [] := by
    simp only [mkFinding] at h
    by_cases hg : sheetName = [] ∨ parseMultipleCells raw = []
    · rw [if_pos hg] at h
      exact absurd h (by simp)
    · rw [if_neg hg] at h
      cases h
      exact ⟨rfl, fun he => hg (Or.inl he)⟩
  have hvalid : isValidSheet avail f.sheet = true ↔
      ∃ s ∈ avail, s.map jsToLower = f.sheet.map jsToLower := by
    rw [isValidSheet, if_neg (hsheet.1 ▸ hsheet.2)]
    simp [List.any_eq_true]
  have hcells : allCellsValid f = true ↔ ∀ c ∈ f.cells, cellPatternTest c = true := by
    simp [allCellsValid, List.all_eq_true]
  refine ⟨?_, fun fs => by simp [renderList], rfl, ?_, ?_⟩
  · rw [isClickable, Bool.and_eq_true, hvalid, hcells]
  · simp only [renderEntry, Bool.not_eq_true']
    rw [← hvalid]
    simp
  · simp only [renderEntry, Bool.not_eq_true']
    rw [← hcells]
    simp

/-- C5 witness: a concrete finding whose sheet matches a known sheet
case-insensitively is clickable. -/
theorem finding_eligibility_spec_witness :
    mkFinding (codes "sheet1") (codes "A1") = some ⟨codes "sheet1", [codes "A1"]⟩
    ∧ isClickable [codes "Sheet1"] ⟨codes "sheet1", [codes "A1"]⟩ = true :=
  ⟨by decide,
    ((finding_eligibility_spec [codes "Sheet1"] (codes "sheet1") (codes "A1")
        ⟨codes "sheet1", [codes "A1"]⟩ (by decide)).1).mpr
      ⟨⟨codes "Sheet1", by decide, by decide⟩, by decide⟩⟩

/-- One cached tile, as stored by `useExcelTiles.js`: the sheet name,
the returned inclusive bounds, and the 2-D data array. -/
structure TilePage (α : Type) where
  sheet : List Nat
  r0 : Nat
  r1 : Nat
  c0 : Nat
  c1 : Nat
  data : List (List α)
deriving DecidableEq

/-- Outcome of `getCell`: a data value, JavaScript `undefined` (the
inner index ran past the row array), the function's `null` (no cached
tile covers the point), or a thrown `TypeError` (the outer index ran
past `data`, so `data[row - r0]` is `undefined` and indexing it
throws). -/
inductive CellResult (α : Type) where
  | value : α → CellResult α
  | undef : CellResult α
  | nullv : CellResult α
  | typeError : CellResult α
deriving DecidableEq

/-- The per-page test of the `getCell` loop: matching sheet and
returned bounds containing `(row, col)`. -/
def coversPoint (p : TilePage α) (sheet : List Nat) (row col : Nat) : Bool :=
  decide (p.sheet = sheet) &&
    (decide (p.r0 ≤ row) && (decide (row ≤ p.r1) &&
      (decide (p.c0 ≤ col) && decide (col ≤ p.c1))))

/-- The body `page.data[row - page.r0][col - page.c0]` with JavaScript
indexing semantics made explicit. -/
def lookupCell (p : TilePage α) (row col : Nat) : CellResult α :=
  match p.data.get? (row - p.r0) with
  | none => .typeError
  | some rowData =>
    match rowData.get? (col - p.c0) with
    | none => .undef
    | some v => .value v

/-- `getCell` from `useExcelTiles.js`: scan the cached pages in
insertion order; skip pages of other sheets and pages not containing
the point; index into the first covering page; `null` if none. -/
def getCell (cache : List (TilePage α)) (sheet : List Nat) (row col : Nat) :
    CellResult α :=
  match cache with
  | [] => .nullv
  | p :: rest =>
    if coversPoint p sheet row col then lookupCell p row col
    else getCell rest sheet row col

theorem getCell_eq_of_find (cache : List (TilePage α)) (sheet : List Nat)
    (row col : Nat) :
    getCell cache sheet row col =
      match cache.find? (fun p => coversPoint p sheet row col) with
      | none => .nullv
      | some p => lookupCell p row col := by
  induction cache with
  | nil => rfl
  | cons p rest ih =>
    by_cases hp : coversPoint p sheet row col = true
    · rw [getCell, if_pos hp]
      simp [List.find?, hp]
    · have hp2 : coversPoint p sheet row col = false := by
        simpa using hp
      rw [getCell, if_neg hp, ih]
      simp [List.find?, hp2]

/-- C2: `getCell` returns `null` when no cached tile with the right
sheet has returned bounds containing `(row, col)`; when the first
covering tile's data holds a value at offset `(row - r0, col - c0)`,
that server-sent value is returned. -/
theorem getCell_spec (α : Type) (cache : List (TilePage α)) (sheet : List Nat)
    (row col : Nat) :
    ((∀ p ∈ cache, coversPoint p sheet row col = false) →
      getCell cache sheet row col = .nullv)
    ∧ (∀ p, cache.find? (fun p => coversPoint p sheet row col) = some p →
        ∀ v, (p.data.get? (row - p.r0)).bind (fun rd => rd.get? (col - p.c0))
            = some v →
          getCell cache sheet row col = .value v) := by
  constructor
  · intro hnone
    rw [getCell_eq_of_find, List.find?_eq_none.mpr]
    intro p hp
    simp [hnone p hp]
  · intro p hfind v hv
    rw [getCell_eq_of_find, hfind]
    cases hrow : p.data.get? (row - p.r0) with
    | none =>
      rw [hrow, Option.none_bind] at hv
      exact absurd hv (by simp)
    | some rowData =>
      rw [hrow, Option.some_bind] at hv
      rw [List.get?_eq_getElem?] at hrow hv
      simp [lookupCell, hrow, hv]

/-- C2 witness: one cached tile serving a hit inside its bounds, and a
point outside every tile's bounds yielding `null`. -/
theorem getCell_spec_witness :
    getCell [⟨codes "S1", 2, 3, 1, 2, [[10, 20], [30, 40]]⟩] (codes "S1") 3 2
      = CellResult.value 40
    ∧ getCell [⟨codes "S1", 2, 3, 1, 2, [[10, 20], [30, 40]]⟩] (codes "S1") 9 9
      = CellResult.nullv :=
  ⟨(getCell_spec Nat [⟨codes "S1", 2, 3, 1, 2, [[10, 20], [30, 40]]⟩]
      (codes "S1") 3 2).2 ⟨codes "S1", 2, 3, 1, 2, [[10, 20], [30, 40]]⟩
      (by decide) 40 (by decide),
   (getCell_spec Nat [⟨codes "S1", 2, 3, 1, 2, [[10, 20], [30, 40]]⟩]
      (codes "S1") 9 9).1 (by decide)⟩

/-- C10 counterexample: a cached tile whose declared bounds exceed its
data in the column direction (bounds 1×2, data 1×1) makes `getCell`
return JavaScript `undefined` at the gap point (1, 2) — not a thrown
`TypeError`, as the claim asserts for every point in the gap. -/
theorem getCell_column_gap_no_typeError :
    getCell [⟨codes "S", 1, 1, 1, 2, [[5]]⟩] (codes "S") 1 2
      = (CellResult.undef : CellResult Nat)
    ∧ (CellResult.undef : CellResult Nat) ≠ CellResult.typeError := by
  decide

/-- C10 (amended): `getCell` performs no bounds check on `data`; it
throws a `TypeError` exactly when the first covering tile's data has at
most `row - r0` rows (so `data[row - r0]` is `undefined`); a column
shortfall only yields `undefined`, and `getCell` never throws iff every
lookup's row offset stays inside the covering tile's data. -/
theorem lookupCell_typeError_iff (α : Type) (p : TilePage α) (row col : Nat) :
    lookupCell p row col = CellResult.typeError ↔
      p.data.length ≤ row - p.r0 := by
  cases hrow : p.data.get? (row - p.r0) with
  | none =>
    have hlen := List.get?_eq_none.mp hrow
    rw [List.get?_eq_getElem?] at hrow
    simp [lookupCell, hrow, hlen]
  | some rowData =>
    have hlen : ¬ p.data.length ≤ row - p.r0 := fun hle => by
      rw [List.get?_eq_none.mpr hle] at hrow
      cases hrow
    rw [List.get?_eq_getElem?] at hrow
    cases hcol : rowData.get? (col - p.c0) with
    | none =>
      rw [List.get?_eq_getElem?] at hcol
      simp [lookupCell, hrow, hcol, hlen]
    | some v =>
      rw [List.get?_eq_getElem?] at hcol
      simp [lookupCell, hrow, hcol, hlen]

theorem getCell_typeError_iff (α : Type) (cache : List (TilePage α))
    (sheet : List Nat) (row col : Nat) :
    getCell cache sheet row col = .typeError ↔
      ∃ p, cache.find? (fun p => coversPoint p sheet row col) = some p ∧
        p.data.length ≤ row - p.r0 := by
  rw [getCell_eq_of_find]
  cases hfind : cache.find? (fun p => coversPoint p sheet row col) with
  | none =>
    constructor
    · intro h
      exact absurd h (by simp)
    · rintro ⟨p, hp, -⟩
      exact absurd hp (by simp)
  | some p =>
    constructor
    · intro h
      exact ⟨p, rfl, (lookupCell_typeError_iff α p row col).mp h⟩
    · rintro ⟨q, hq, hlen⟩
      obtain rfl : p = q := by injection hq
      exact (lookupCell_typeError_iff α p row col).mpr hlen

/-- The request sent by `getExcelPage`. -/
structure FetchReq where
  fileId : List Nat
  sheet : List Nat
  r0 : Nat
  r1 : Nat
  c0 : Nat
  c1 : Nat
deriving DecidableEq

/-- The cache key template of `fetchTile`: the string
`sheet + ":" + r0 + ":" + c0`. -/
def tileKey (sheet : List Nat) (r0 c0 : Nat) : List Nat :=
  sheet ++ codes ":" ++ codes (toString r0) ++ codes ":" ++ codes (toString c0)

/-- `fetchTile` from `useExcelTiles.js`, with the network effect made
explicit: `server` stands for `getExcelPage`, the cache is the `Map` as
an insertion-ordered association list, and the third component is the
request issued (`none` on a cache hit). -/
def fetchTile (server : FetchReq → TilePage α) (fileId : List Nat)
    (tileRows tileCols : Nat) (cache : List (List Nat × TilePage α))
    (sheet : List Nat) (r0 c0 : Nat) :
    TilePage α × List (List Nat × TilePage α) × Option FetchReq :=
  let key := tileKey sheet r0 c0
  match cache.lookup key with
  | some page => (page, cache, none)
  | none =>
    let req : FetchReq := ⟨fileId, sheet, r0, r0 + tileRows - 1,
      c0, c0 + tileCols - 1⟩
    let page := server req
    (page, cache ++ [(key, page)], some req)

theorem lookup_append_last (cache : List (List Nat × TilePage α))
    (key : List Nat) (page : TilePage α)
    (h : cache.lookup key = none) :
    (cache ++ [(key, page)]).lookup key = some page := by
  induction cache with
  | nil => simp [List.lookup]
  | cons e rest ih =>
    rw [List.lookup] at h
    cases hbe : (key == e.1) with
    | true => rw [hbe] at h; cases h
    | false =>
      rw [hbe] at h
      rw [List.cons_append, List.lookup, hbe]
      exact ih h

/-- C3: on a cache miss (no entry under the key built from the
requested origin) `fetchTile` requests exactly the inclusive window
`[r0, r0+tileRows-1] × [c0, c0+tileCols-1]` and stores the response
under that key; a second call with the same arguments then returns the
identical cached tile and issues no second request. -/
theorem fetchTile_spec (α : Type) (server : FetchReq → TilePage α)
    (fileId : List Nat) (tileRows tileCols : Nat)
    (cache : List (List Nat × TilePage α)) (sheet : List Nat) (r0 c0 : Nat) :
    (cache.lookup (tileKey sheet r0 c0) = none →
      fetchTile server fileId tileRows tileCols cache sheet r0 c0 =
        (server ⟨fileId, sheet, r0, r0 + tileRows - 1, c0, c0 + tileCols - 1⟩,
         cache ++ [(tileKey sheet r0 c0,
           server ⟨fileId, sheet, r0, r0 + tileRows - 1, c0, c0 + tileCols - 1⟩)],
         some ⟨fileId, sheet, r0, r0 + tileRows - 1, c0, c0 + tileCols - 1⟩))
    ∧ (∀ page cache2 req,
        fetchTile server fileId tileRows tileCols cache sheet r0 c0 =
          (page, cache2, req) →
        fetchTile server fileId tileRows tileCols cache2 sheet r0 c0 =
          (page, cache2, none)) := by
  constructor
  · intro hmiss
    rw [fetchTile]
    simp only [hmiss]
  · intro page cache2 req hcall
    rw [fetchTile] at hcall
    cases hlook : (cache.lookup (tileKey sheet r0 c0)) with
    | some cached =>
      simp only [hlook] at hcall
      injection hcall with h1 h23
      injection h23 with h2 h3
      subst h1 h2 h3
      rw [fetchTile]
      simp only [hlook]
    | none =>
      simp only [hlook] at hcall
      injection hcall with h1 h23
      injection h23 with h2 h3
      subst h1 h2 h3
      rw [fetchTile]
      simp only [lookup_append_last cache _ _ hlook]

/-- C3 witness: starting from an empty cache, the first call issues the
window request and caches it, and the second call is a pure cache hit. -/
theorem fetchTile_spec_witness :
    fetchTile (fun r => TilePage.mk r.sheet r.r0 r.r1 r.c0 r.c1 ([[1]] : List (List Nat)))
        (codes "f") 2 3 [] (codes "S") 1 1 =
      (⟨codes "S", 1, 2, 1, 3, [[1]]⟩,
       [(tileKey (codes "S") 1 1, ⟨codes "S", 1, 2, 1, 3, [[1]]⟩)],
       some ⟨codes "f", codes "S", 1, 2, 1, 3⟩)
    ∧ fetchTile (fun r => TilePage.mk r.sheet r.r0 r.r1 r.c0 r.c1 ([[1]] : List (List Nat)))
        (codes "f") 2 3
        [(tileKey (codes "S") 1 1, ⟨codes "S", 1, 2, 1, 3, [[1]]⟩)]
        (codes "S") 1 1 =
      (⟨codes "S", 1, 2, 1, 3, [[1]]⟩,
       [(tileKey (codes "S") 1 1, ⟨codes "S", 1, 2, 1, 3, [[1]]⟩)], none) :=
  ⟨(fetchTile_spec Nat
      (fun r => TilePage.mk r.sheet r.r0 r.r1 r.c0 r.c1 [[1]])
      (codes "f") 2 3 [] (codes "S") 1 1).1 rfl,
   (fetchTile_spec Nat
      (fun r => TilePage.mk r.sheet r.r0 r.r1 r.c0 r.c1 [[1]])
      (codes "f") 2 3 [] (codes "S") 1 1).2 _ _ _
     ((fetchTile_spec Nat
        (fun r => TilePage.mk r.sheet r.r0 r.r1 r.c0 r.c1 [[1]])
        (codes "f") 2 3 [] (codes "S") 1 1).1 rfl)⟩

/-- The scroll-target computation of the scroll-to-highlight effect in
`ExcelViewer.jsx`:
`Math.max(0, idx * cellSize - Math.max(0, viewport / 2 - cellSize / 2))`
(the same formula is used for top with row height / client height and
for left with column width / client width). -/
def computedScrollOffset (idx cellSize viewport : ℚ) : ℚ :=
  max 0 (idx * cellSize - max 0 (viewport / 2 - cellSize / 2))

/-- C6 counterexample: with 10 rows of height 10 (content size 100) and
a viewport of 60, scrolling to the last row (index 9) computes offset
65, which exceeds `contentSize - viewportSize = 40`: the effect has no
upper clamp. -/
theorem computedScrollOffset_exceeds_content :
    computedScrollOffset 9 10 60 = 65 ∧ ((10 : ℚ) * 10 - 60 = 40) ∧
      ¬ computedScrollOffset 9 10 60 ≤ 40 := by
  refine ⟨?_, by norm_num, ?_⟩ <;> norm_num [computedScrollOffset]

/-- C6 (amended): the computed offset equals
`idx * cellSize - max(0, viewport/2 - cellSize/2)` clamped to ≥ 0, and
whenever the clamp does not bind and the cell fits the viewport, the
offset centers the target cell (cell center lands at viewport center);
no upper clamp against the content size is applied. -/
theorem computedScrollOffset_spec (idx cellSize viewport : ℚ)
    (h1 : cellSize ≤ viewport)
    (h2 : viewport / 2 - cellSize / 2 ≤ idx * cellSize) :
    0 ≤ computedScrollOffset idx cellSize viewport
    ∧ computedScrollOffset idx cellSize viewport + viewport / 2
        = idx * cellSize + cellSize / 2 := by
  have hin : max 0 (viewport / 2 - cellSize / 2) = viewport / 2 - cellSize / 2 :=
    max_eq_right (by linarith)
  constructor
  · exact le_max_left 0 _
  · rw [computedScrollOffset, hin, max_eq_right (by linarith)]
    ring

/-- C6 witness: row index 5, cell size 10, viewport 60 gives offset 25,
which is nonnegative and centers the cell. -/
theorem computedScrollOffset_spec_witness :
    0 ≤ computedScrollOffset 5 10 60
    ∧ computedScrollOffset 5 10 60 + 60 / 2 = 5 * 10 + 10 / 2 :=
  computedScrollOffset_spec 5 10 60 (by norm_num) (by norm_num)

/-- `getConfidenceColor` from `InteractiveValidation.jsx`. The
confidence is an optional number; the JavaScript guard
`if (!confidence)` is true for a missing value and for the number 0
(both are falsy), and the thresholds 0.8 and 0.6 are exact here. -/
def getConfidenceColor (confidence : Option ℚ) : String :=
  match confidence with
  | none => "#9CA3AF"
  | some q =>
    if q = 0 then "#9CA3AF"
    else if 4 / 5 ≤ q then "#10B981"
    else if 3 / 5 ≤ q then "#F59E0B"
    else "#EF4444"

/-- C8 counterexample: a defined confidence of 0 is below 0.6, so the
claim demands red, but the falsy guard returns neutral gray. -/
theorem getConfidenceColor_zero_gray :
    getConfidenceColor (some 0) = "#9CA3AF"
    ∧ getConfidenceColor (some 0) ≠ "#EF4444" := by
  have h : getConfidenceColor (some 0) = "#9CA3AF" := by
    norm_num [getConfidenceColor]
  refine ⟨h, ?_⟩
  rw [h]
  decide

/-- C8 (amended): the default bounding-box color is neutral gray when
the confidence is undefined or 0 (falsy), green when ≥ 0.8, amber when
0.6 ≤ confidence < 0.8, and red below 0.6 for every nonzero value. -/
theorem getConfidenceColor_spec (q : ℚ) (hq : q ≠ 0) :
    getConfidenceColor none = "#9CA3AF"
    ∧ getConfidenceColor (some 0) = "#9CA3AF"
    ∧ (4 / 5 ≤ q → getConfidenceColor (some q) = "#10B981")
    ∧ (3 / 5 ≤ q → q < 4 / 5 → getConfidenceColor (some q) = "#F59E0B")
    ∧ (q < 3 / 5 → getConfidenceColor (some q) = "#EF4444") := by
  refine ⟨rfl, by norm_num [getConfidenceColor], ?_, ?_, ?_⟩
  · intro h
    rw [getConfidenceColor, if_neg hq, if_pos h]
  · intro h hlt
    rw [getConfidenceColor, if_neg hq, if_neg (by linarith), if_pos h]
  · intro h
    rw [getConfidenceColor, if_neg hq, if_neg (by linarith),
      if_neg (by linarith)]

/-- C8 witness: confidence 0.9 is nonzero and ≥ 0.8, hence green. -/
theorem getConfidenceColor_spec_witness :
    getConfidenceColor (some (9 / 10)) = "#10B981" :=
  (getConfidenceColor_spec (9 / 10) (by norm_num)).2.2.1 (by norm_num)

/-- A zoom step of the `ExcelViewer.jsx` toolbar. -/
inductive ZoomOp where
  | zoomIn : ZoomOp
  | zoomOut : ZoomOp
  | reset : ZoomOp
deriving DecidableEq

/-- The three handlers: `setZoom(Math.min(200, zoom + 10))`,
`setZoom(Math.max(50, zoom - 10))`, `setZoom(100)`. -/
def applyZoom (zoom : Int) : ZoomOp → Int
  | .zoomIn => min 200 (zoom + 10)
  | .zoomOut => max 50 (zoom - 10)
  | .reset => 100

/-- The zoom value after a sequence of toolbar operations, starting
from the initial state `useState(100)`. -/
def runZoom (ops : List ZoomOp) : Int :=
  ops.foldl applyZoom 100

theorem runZoom_go_bounds (ops : List ZoomOp) (z : Int)
    (h50 : 50 ≤ z) (h200 : z ≤ 200) :
    50 ≤ ops.foldl applyZoom z ∧ ops.foldl applyZoom z ≤ 200 := by
  induction ops generalizing z with
  | nil => exact ⟨h50, h200⟩
  | cons op rest ih =>
    rw [List.foldl_cons]
    cases op with
    | zoomIn => exact ih _ (by simp [applyZoom]; omega) (by simp [applyZoom])
    | zoomOut => exact ih _ (by simp [applyZoom]) (by simp [applyZoom]; omega)
    | reset => exact ih _ (by simp [applyZoom]) (by simp [applyZoom])

/-- C9: starting from 100, every sequence of zoom-in (+10 capped at
200), zoom-out (-10 floored at 50) and reset (to 100) operations keeps
the zoom percentage within [50, 200]. -/
theorem runZoom_bounds (ops : List ZoomOp) :
    50 ≤ runZoom ops ∧ runZoom ops ≤ 200 :=
  runZoom_go_bounds ops 100 (by omega) (by omega)

/-- C4 witness: a concrete raw reference with one valid and one invalid
token, instantiating the general order and validity properties. -/
theorem parseMultipleCells_spec_witness :
    cellPatternTest (codes "X1") = true
    ∧ (parseMultipleCells (codes "X1!zz")).Sublist
        ((splitOn 33 (codes "X1!zz")).map jsTrim) :=
  ⟨(parseMultipleCells_spec.2.2 (codes "X1!zz")).1 (codes "X1") (by decide),
   (parseMultipleCells_spec.2.2 (codes "X1!zz")).2⟩

/-- C10 witness: a tile declaring two rows but holding one data row
makes `getCell` throw at the second declared row. -/
theorem getCell_typeError_iff_witness :
    getCell [⟨codes "S", 1, 2, 1, 1, [[7]]⟩] (codes "S") 2 1
      = (CellResult.typeError : CellResult Nat) :=
  (getCell_typeError_iff Nat [⟨codes "S", 1, 2, 1, 1, [[7]]⟩]
      (codes "S") 2 1).mpr
    ⟨⟨codes "S", 1, 2, 1, 1, [[7]]⟩, by decide, by decide⟩
